import Mathlib

/-!
Shallow embedding of the tender lifecycle core of the `tenderbridge`
repository: the tender state machine (`app/utils/tender_state.py`), the
bid operations (`app/api/bids.py`), the award endpoint
(`app/api/tender.py`), and the asynchronous ledger-commit worker
(`app/services/chain_worker.py` / `app/services/blockchain_service.py`).
Machine state is modelled as explicit records; the database session is a
pair of lists; fallible endpoints return `Except`.
-/

namespace TenderBridge

/-- Tender status values, from class `TenderStatus` in
`app/utils/tender_state.py` (strings in the source; every write in the
source uses one of these seven values). -/
inductive TStatus
  | draft
  | published
  | open_
  | evaluation
  | awarded
  | cancelled
  | closed
deriving DecidableEq, Repr, Fintype

/-- The string value each status constant holds in the source. -/
def statusStr : TStatus → String
  | .draft => "draft"
  | .published => "published"
  | .open_ => "open"
  | .evaluation => "evaluation"
  | .awarded => "awarded"
  | .cancelled => "cancelled"
  | .closed => "closed"

/-- `TenderStateMachine.TRANSITIONS` (tender_state.py lines 31-39). -/
def TRANSITIONS : TStatus → List TStatus
  | .draft => [.published, .cancelled]
  | .published => [.open_, .cancelled]
  | .open_ => [.evaluation, .closed, .cancelled]
  | .evaluation => [.awarded, .open_, .cancelled]
  | .closed => [.evaluation, .cancelled]
  | .awarded => []
  | .cancelled => []

/-- `TenderStateMachine.can_transition`. Every `TStatus` is a key of the
transition table, so the `from_status not in cls.TRANSITIONS` guard of the
source never fires over this type. -/
def can_transition (from_status to_status : TStatus) : Bool :=
  (TRANSITIONS from_status).contains to_status

/-- `TenderStateMachine.get_allowed_transitions`. -/
def get_allowed_transitions (current_status : TStatus) : List TStatus :=
  TRANSITIONS current_status

/-- Python truthiness of the optional `reason` argument
(`not reason` is `True` exactly for `None` and `""`). -/
def reasonTruthy : Option String → Bool
  | none => false
  | some s => s ≠ ""

/-- Python `repr` of a list of strings, as interpolated by the f-string
in `validate_transition` (e.g. `['published', 'cancelled']`). -/
def pyListRepr (l : List String) : String :=
  "[" ++ String.intercalate ", " (l.map (fun s => "\x27" ++ s ++ "\x27")) ++ "]"

/-- `TenderStateMachine.validate_transition` (tender_state.py lines 54-72). -/
def validate_transition (from_status to_status : TStatus) (reason : Option String) :
    Bool × String :=
  if from_status = to_status then
    (true, "Status unchanged")
  else if can_transition from_status to_status = false then
    (false, "Cannot transition from \x27" ++ statusStr from_status ++ "\x27 to \x27"
      ++ statusStr to_status ++ "\x27. Allowed: "
      ++ pyListRepr ((get_allowed_transitions from_status).map statusStr))
  else if to_status = TStatus.cancelled ∧ reasonTruthy reason = false then
    (false, "Cancellation requires a reason")
  else
    (true, "Valid transition")

/-- `TenderStateMachine.is_terminal_status`. -/
def is_terminal_status (status : TStatus) : Bool :=
  status = TStatus.awarded ∨ status = TStatus.cancelled

/-- `TenderStateMachine.can_receive_bids`. -/
def can_receive_bids (status : TStatus) : Bool :=
  status = TStatus.open_

/-- `TenderStateMachine.can_edit_tender`. -/
def can_edit_tender (status : TStatus) : Bool :=
  status = TStatus.draft ∨ status = TStatus.published

/-- `TenderStateMachine.can_award`. -/
def can_award (status : TStatus) : Bool :=
  status = TStatus.evaluation

/-- The rejection message built by `validate_transition` when the pair is
not in the transition table. -/
def cannotTransitionMsg (from_status to_status : TStatus) : String :=
  "Cannot transition from \x27" ++ statusStr from_status ++ "\x27 to \x27"
    ++ statusStr to_status ++ "\x27. Allowed: "
    ++ pyListRepr ((get_allowed_transitions from_status).map statusStr)

/-- The authenticated actor: role string and optional company affiliation,
the two `User` columns the core reads (`app/db/models.py`). Identities are
modelled as natural numbers in place of UUIDs. -/
structure User where
  id : Nat
  role : String
  company_id : Option Nat
deriving DecidableEq, Repr

/-- `is_admin` (app/utils/permissions.py). -/
def is_admin (u : User) : Bool :=
  u.role = "admin"

/-- `is_tender_manager` (app/utils/permissions.py). -/
def is_tender_manager (u : User) : Bool :=
  ["admin", "company_admin", "tender_manager"].contains u.role

/-- `can_award_tender` (app/utils/permissions.py lines 67-73). -/
def can_award_tender (u : User) (tender_posted_by_id : Nat) : Bool :=
  if is_admin u then true
  else if is_tender_manager u && u.company_id == some tender_posted_by_id then true
  else false

/-- `can_submit_bid` (app/utils/permissions.py lines 76-78). -/
def can_submit_bid (u : User) : Bool :=
  u.company_id.isSome

/-- `can_create_tender` (app/utils/permissions.py lines 62-64). -/
def can_create_tender (u : User) : Bool :=
  is_tender_manager u && u.company_id.isSome

/-- The `Tender` row (app/db/models.py), restricted to the columns the
core reads or writes. Instants are natural numbers; `status` holds one of
the seven machine values (the only values the source ever writes). -/
structure Tender where
  id : Nat
  title : String
  closing_date : Nat
  posted_by_id : Nat
  status : TStatus
  winning_bid_id : Option Nat := none
  awarded_at : Option Nat := none
  award_justification : Option String := none
  award_hash_on_chain : Option String := none
  award_chain_tx : Option String := none
  cancelled_at : Option Nat := none
  cancellation_reason : Option String := none
  cancelled_by_id : Option Nat := none
deriving DecidableEq, Repr

/-- The `Bid` row (app/db/models.py): column defaults are
`status = "pending"`, `revision_number = 1`, `parent_bid_id = NULL`.
Bid status is string-typed in the source and kept so here. -/
structure Bid where
  id : Nat
  tender_id : Nat
  company_id : Nat
  amount : Int
  status : String := "pending"
  revision_number : Nat := 1
  parent_bid_id : Option Nat := none
  document_path : Option String := none
  withdrawn_at : Option Nat := none
  withdrawal_reason : Option String := none
deriving DecidableEq, Repr

/-- The database session's view of the two aggregates the core mutates. -/
structure DB where
  tenders : List Tender
  bids : List Bid
deriving DecidableEq, Repr

/-- `db.query(Tender).filter(Tender.id == tid).first()`. -/
def DB.findTender (db : DB) (tid : Nat) : Option Tender :=
  db.tenders.find? (fun t => t.id == tid)

/-- `db.query(Bid).filter(Bid.id == bid_id).first()`. -/
def DB.findBid (db : DB) (bid_id : Nat) : Option Bid :=
  db.bids.find? (fun b => b.id == bid_id)

/-- Mutate the first row matching `p` in place, as the ORM does when a
fetched row object is assigned to and the session committed. -/
def updateFirst (p : α → Bool) (f : α → α) : List α → List α
  | [] => []
  | a :: rest => if p a then f a :: rest else a :: updateFirst p f rest

/-- Error taxonomy of the award endpoint `award_tender`
(app/api/tender.py lines 238-304), one constructor per `HTTPException`
site in source order. -/
inductive AwardErr
  | tenderNotFound
  | notAuthorized
  | invalidState
  | alreadyAwarded
  | bidNotFound
  | withdrawnBid
deriving DecidableEq, Repr

/-- `bid.status = "accepted"` on the fetched winning row
(app/api/tender.py line 293). -/
def setWinnerAccepted (bids : List Bid) (wid tid : Nat) : List Bid :=
  updateFirst (fun b => b.id == wid && b.tender_id == tid)
    (fun b => { b with status := "accepted" }) bids

/-- The per-row effect of the `other_bids` loop (app/api/tender.py lines
296-302): every bid of the tender other than the winner whose status is
not `withdrawn` is set to `rejected`. -/
def rejectOther (wid tid : Nat) (b : Bid) : Bid :=
  if b.tender_id == tid && b.id != wid && b.status != "withdrawn" then
    { b with status := "rejected" }
  else b

/-- The bulk update over all rows returned by the `other_bids` query. -/
def rejectOthers (bids : List Bid) (wid tid : Nat) : List Bid :=
  bids.map (rejectOther wid tid)

/-- The full bid-set resolution the award endpoint performs: accept the
fetched winner, then reject all other non-withdrawn bids of the tender. -/
def resolve_award (bids : List Bid) (wid tid : Nat) : List Bid :=
  rejectOthers (setWinnerAccepted bids wid tid) wid tid

/-- `award_tender` (app/api/tender.py lines 238-323), its checks in
source order; the enqueue of the chain job is fire-and-forget and does
not affect the committed state. -/
def award_tender (db : DB) (tender_id winning_bid_id : Nat)
    (justification : String) (u : User) (now : Nat) : Except AwardErr DB :=
  match db.findTender tender_id with
  | none => .error .tenderNotFound
  | some tender =>
    if can_award_tender u tender.posted_by_id = false then
      .error .notAuthorized
    else if can_award tender.status = false then
      .error .invalidState
    else if tender.status = TStatus.awarded then
      .error .alreadyAwarded
    else
      match db.bids.find? (fun b => b.id == winning_bid_id && b.tender_id == tender_id) with
      | none => .error .bidNotFound
      | some bid =>
        if bid.status == "withdrawn" then
          .error .withdrawnBid
        else
          .ok { db with
            tenders := updateFirst (fun t => t.id == tender_id)
              (fun t => { t with
                status := TStatus.awarded,
                winning_bid_id := some winning_bid_id,
                awarded_at := some now,
                award_justification := some justification }) db.tenders,
            bids := resolve_award db.bids winning_bid_id tender_id }

/-- Error taxonomy of the bid endpoints (app/api/bids.py), one
constructor per `HTTPException` site the model covers. -/
inductive BidErr
  | noCompany
  | notFound
  | forbidden
  | invalidState
  | alreadyWithdrawn
  | selfBidding
  | invalidStatusValue
deriving DecidableEq, Repr

/-- `submit_bid_with_file` (app/api/bids.py lines 20-89), file storage and
amount parsing abstracted away (the document path and the parsed amount
are taken as inputs); checks in source order. -/
def submit_bid (db : DB) (tender_id : Nat) (u : User) (amount : Int)
    (document_path : String) (newId : Nat) (now : Nat) : Except BidErr DB :=
  if u.company_id = none then .error .noCompany
  else if can_submit_bid u = false then .error .noCompany
  else
    match db.findTender tender_id with
    | none => .error .notFound
    | some tender =>
      if can_receive_bids tender.status = false then .error .invalidState
      else if tender.closing_date ≤ now then .error .invalidState
      else if some tender.posted_by_id == u.company_id then .error .selfBidding
      else
        .ok { db with bids := db.bids ++
          [{ id := newId, tender_id := tender_id,
             company_id := u.company_id.getD 0, amount := amount,
             document_path := some document_path }] }

/-- `withdraw_bid` (app/api/bids.py lines 161-201); note the source
checks only the tender's status (`can_receive_bids`), never the closing
date, and the current time is used only for the `withdrawn_at` stamp. -/
def withdraw_bid (db : DB) (bid_id : Nat) (u : User) (reason : String)
    (now : Nat) : Except BidErr DB :=
  match db.findBid bid_id with
  | none => .error .notFound
  | some bid =>
    if (u.company_id == some bid.company_id) = false then .error .forbidden
    else if bid.status == "withdrawn" then .error .alreadyWithdrawn
    else
      match db.findTender bid.tender_id with
      | none => .error .notFound
      | some tender =>
        if can_receive_bids tender.status = false then .error .invalidState
        else
          .ok { db with
            bids := updateFirst (fun b => b.id == bid_id)
              (fun b => { b with status := "withdrawn",
                                 withdrawn_at := some now,
                                 withdrawal_reason := some reason }) db.bids }

/-- `revise_bid` (app/api/bids.py lines 204-281), file storage and amount
parsing abstracted; `newDoc = none` models no uploaded file, in which
case the original's document path is carried forward. -/
def revise_bid (db : DB) (bid_id : Nat) (u : User) (amount : Int)
    (newDoc : Option String) (newId : Nat) (now : Nat) : Except BidErr DB :=
  match db.findBid bid_id with
  | none => .error .notFound
  | some original_bid =>
    if (u.company_id == some original_bid.company_id) = false then .error .forbidden
    else if original_bid.status == "withdrawn" then .error .invalidState
    else
      match db.findTender original_bid.tender_id with
      | none => .error .notFound
      | some tender =>
        if can_receive_bids tender.status = false then .error .invalidState
        else if tender.closing_date ≤ now then .error .invalidState
        else
          let document_path := match newDoc with
            | some d => some d
            | none => original_bid.document_path
          .ok { db with
            bids := updateFirst (fun b => b.id == bid_id)
                (fun b => { b with status := "superseded" }) db.bids ++
              [{ id := newId,
                 tender_id := original_bid.tender_id,
                 company_id := original_bid.company_id,
                 amount := amount,
                 document_path := document_path,
                 status := "pending",
                 revision_number := original_bid.revision_number + 1,
                 parent_bid_id := some bid_id }] }

/-- `update_bid_status` (app/api/bids.py lines 128-149): the tender's
owner may set a bid's status to any of `pending`, `accepted`,
`rejected`, with no uniqueness or state-machine check. -/
def update_bid_status (db : DB) (bid_id : Nat) (status : String)
    (u : User) : Except BidErr DB :=
  match db.findBid bid_id with
  | none => .error .notFound
  | some bid =>
    match db.findTender bid.tender_id with
    | none => .error .notFound
    | some tender =>
      if (u.company_id == some tender.posted_by_id) = false then .error .forbidden
      else if (["pending", "accepted", "rejected"].contains status) = false then
        .error .invalidStatusValue
      else
        .ok { db with
          bids := updateFirst (fun b => b.id == bid_id)
            (fun b => { b with status := status }) db.bids }

/-- Error taxonomy of the tender endpoints (app/api/tender.py). -/
inductive TenderErr
  | noCompany
  | forbidden
  | notFound
  | invalidTransition (msg : String)
  | missingClosingDate
deriving DecidableEq, Repr

/-- `create_tender` (app/api/tender.py lines 26-76): new tenders start in
`draft` status, posted by the actor's company. -/
def create_tender (db : DB) (newId : Nat) (title : String)
    (closing_date : Nat) (u : User) : Except TenderErr DB :=
  match u.company_id with
  | none => .error .noCompany
  | some company =>
    if can_create_tender u = false then .error .forbidden
    else
      .ok { db with tenders := db.tenders ++
        [{ id := newId, title := title, closing_date := closing_date,
           posted_by_id := company, status := TStatus.draft }] }

/-- `update_tender_status` (app/api/tender.py lines 158-204): validates
the transition through the state machine and persists the new status,
recording cancellation metadata when the target is `cancelled`. -/
def update_tender_status (db : DB) (tender_id : Nat) (status : TStatus)
    (reason : Option String) (u : User) (now : Nat) : Except TenderErr DB :=
  match db.findTender tender_id with
  | none => .error .notFound
  | some tender =>
    if can_award_tender u tender.posted_by_id = false then .error .forbidden
    else
      let v := validate_transition tender.status status reason
      if v.1 = false then .error (.invalidTransition v.2)
      else
        .ok { db with
          tenders := updateFirst (fun t => t.id == tender_id)
            (fun t =>
              let t1 := if status = TStatus.cancelled then
                  { t with cancelled_at := some now,
                           cancellation_reason := reason,
                           cancelled_by_id := some u.id }
                else t
              { t1 with status := status }) db.tenders }

/-- The state-mutating operations the program exposes on tenders and
bids, with their request arguments (fresh row ids stand in for the
database's generated UUIDs). -/
inductive Op
  | opCreateTender (newId : Nat) (title : String) (closing : Nat) (u : User)
  | opChangeStatus (tid : Nat) (target : TStatus) (reason : Option String) (u : User) (now : Nat)
  | opSubmitBid (tid : Nat) (u : User) (amount : Int) (doc : String) (newId : Nat) (now : Nat)
  | opWithdrawBid (bid_id : Nat) (u : User) (reason : String) (now : Nat)
  | opReviseBid (bid_id : Nat) (u : User) (amount : Int) (doc : Option String) (newId : Nat) (now : Nat)
  | opUpdateBidStatus (bid_id : Nat) (status : String) (u : User)
  | opAwardTender (tid : Nat) (wid : Nat) (justification : String) (u : User) (now : Nat)
deriving DecidableEq, Repr

/-- Whether an operation is the award operation. -/
def Op.isAward : Op → Bool
  | .opAwardTender .. => true
  | _ => false

/-- Run one operation against the database: a rejected request commits
nothing, so the state is unchanged on error. -/
def applyOp (db : DB) : Op → DB
  | .opCreateTender newId title closing u =>
      match create_tender db newId title closing u with
      | .ok db' => db' | .error _ => db
  | .opChangeStatus tid target reason u now =>
      match update_tender_status db tid target reason u now with
      | .ok db' => db' | .error _ => db
  | .opSubmitBid tid u amount doc newId now =>
      match submit_bid db tid u amount doc newId now with
      | .ok db' => db' | .error _ => db
  | .opWithdrawBid bid_id u reason now =>
      match withdraw_bid db bid_id u reason now with
      | .ok db' => db' | .error _ => db
  | .opReviseBid bid_id u amount doc newId now =>
      match revise_bid db bid_id u amount doc newId now with
      | .ok db' => db' | .error _ => db
  | .opUpdateBidStatus bid_id status u =>
      match update_bid_status db bid_id status u with
      | .ok db' => db' | .error _ => db
  | .opAwardTender tid wid justification u now =>
      match award_tender db tid wid justification u now with
      | .ok db' => db' | .error _ => db

/-- Run a sequence of operations. -/
def applyOps (db : DB) (ops : List Op) : DB :=
  ops.foldl applyOp db

/-- The empty initial database. -/
def emptyDB : DB := { tenders := [], bids := [] }

/-- `process_award` (app/services/chain_worker.py lines 10-67): the
asynchronous worker loads the tender and winning bid, calls the ledger
(`record_award`), and only then writes the proof fields and the bid
status; any raised error reaches `db.rollback()`, leaving the session's
rows untouched. The external ledger call's outcome is the `ledger`
parameter: `.ok (data_hash, tx_hash)` or a raised error. -/
def process_award (db : DB) (tender_id winning_bid_id : Nat)
    (ledger : Except String (String × String)) : DB :=
  match db.findTender tender_id, db.findBid winning_bid_id with
  | some _, some _ =>
    (match ledger with
     | .error _ => db
     | .ok (data_hash, tx_hash) =>
        { db with
          tenders := updateFirst (fun t => t.id == tender_id)
            (fun t => { t with award_hash_on_chain := some data_hash,
                               award_chain_tx := some tx_hash }) db.tenders,
          bids := updateFirst (fun b => b.id == winning_bid_id)
            (fun b => { b with status := "accepted" }) db.bids })
  | _, _ => db

/-- The association list `award_data` built by `process_award`
(chain_worker.py lines 30-38), in its Python insertion order; every
value is already a string in the source. -/
def award_data (tender_id tender_title winning_bid_id winning_company_id
    award_amount awarded_at posted_by : String) : List (String × String) :=
  [("tender_id", tender_id),
   ("tender_title", tender_title),
   ("winning_bid_id", winning_bid_id),
   ("winning_company_id", winning_company_id),
   ("award_amount", award_amount),
   ("awarded_at", awarded_at),
   ("posted_by", posted_by)]

/-- JSON string escaping of the two characters every JSON encoder must
escape in these payloads (quote and backslash). -/
def jsonEscapeChar (c : Char) : String :=
  if c = '"' then "\\\"" else if c = '\\' then "\\\\" else String.singleton c

/-- A JSON string literal. -/
def jsonQuote (s : String) : String :=
  "\"" ++ String.join (s.toList.map jsonEscapeChar) ++ "\""

/-- Render an association list as a JSON object in the given key order,
with `json.dumps`' default separators. -/
def renderPairs (l : List (String × String)) : String :=
  "\x7b" ++ String.intercalate ", "
    (l.map (fun kv => jsonQuote kv.1 ++ ": " ++ jsonQuote kv.2)) ++ "\x7d"

/-- Key order used by `json.dumps(..., sort_keys=True)`. -/
def keyLE (a b : String × String) : Prop := a.1 ≤ b.1

instance : DecidableRel keyLE := fun a b => inferInstanceAs (Decidable (a.1 ≤ b.1))

/-- `json.dumps(award_data, sort_keys=True)` (blockchain_service.py line
53): serialize with the keys in sorted order. -/
def dumps_sort_keys (l : List (String × String)) : String :=
  renderPairs (List.insertionSort keyLE l)

/-- The content hash `record_award` computes (blockchain_service.py lines
52-55): a digest of the sorted-key serialization. The digest function
itself (SHA-256) is an external primitive, taken as a parameter. -/
def record_award_hash (digest : String → String)
    (l : List (String × String)) : String :=
  digest (dumps_sort_keys l)

/-- Before/after relation of one bid row under the award's bid
resolution: rows of other tenders are untouched, the winner is accepted,
other non-withdrawn rows of the tender are rejected, withdrawn rows of
the tender are untouched. -/
def bidResolution (tid wid : Nat) (b b' : Bid) : Prop :=
  (b.tender_id ≠ tid → b' = b) ∧
  (b.tender_id = tid → b.id = wid → b' = { b with status := "accepted" }) ∧
  (b.tender_id = tid → b.id ≠ wid → b.status ≠ "withdrawn" →
    b' = { b with status := "rejected" }) ∧
  (b.tender_id = tid → b.id ≠ wid → b.status = "withdrawn" → b' = b)

/-- A bid of the given tender holding status `accepted`. -/
def acceptedOf (tid : Nat) (b : Bid) : Bool :=
  b.tender_id == tid && b.status == "accepted"

/-- Strict key order on serialized pairs. -/
def keyLT (a b : String × String) : Prop := a.1 < b.1

instance : IsTotal (String × String) keyLE :=
  ⟨fun a b => le_total a.1 b.1⟩

instance : IsTrans (String × String) keyLE :=
  ⟨fun _ _ _ h1 h2 => le_trans h1 h2⟩

instance : IsAntisymm (String × String) keyLT :=
  ⟨fun _ _ h1 h2 => absurd h2 (not_lt.mpr (le_of_lt h1))⟩

/-- A tender-manager actor of company 1. -/
def exOwner : User := { id := 100, role := "tender_manager", company_id := some 1 }

/-- A bidding actor of company 2. -/
def exBidder : User := { id := 101, role := "user", company_id := some 2 }

/-- A second bidding actor, of company 3. -/
def exBidder2 : User := { id := 102, role := "user", company_id := some 3 }

/-- A tender of company 1 in `evaluation` status. -/
def exTender : Tender :=
  { id := 1, title := "T", closing_date := 50, posted_by_id := 1,
    status := TStatus.evaluation }

/-- A pending bid of company 2 on `exTender`. -/
def exBid1 : Bid := { id := 11, tender_id := 1, company_id := 2, amount := 100 }

/-- A pending bid of company 3 on `exTender`. -/
def exBid2 : Bid := { id := 12, tender_id := 1, company_id := 3, amount := 150 }

/-- A withdrawn bid of company 4 on `exTender`. -/
def exBid3 : Bid :=
  { id := 13, tender_id := 1, company_id := 4, amount := 120, status := "withdrawn" }

/-- A database holding one evaluation-stage tender and three bids. -/
def exDB : DB := { tenders := [exTender], bids := [exBid1, exBid2, exBid3] }

/-- `exDB` after awarding bid 11 with justification `"good value"` at
instant 60. -/
def exAwardedDB : DB :=
  { tenders := [{ exTender with
      status := TStatus.awarded, winning_bid_id := some 11,
      awarded_at := some 60, award_justification := some "good value" }],
    bids := [{ exBid1 with status := "accepted" },
             { exBid2 with status := "rejected" },
             exBid3] }

/-- An `open` tender of company 1 whose closing date (5) lies in the
past relative to the instants used below. -/
def lateTender : Tender :=
  { id := 1, title := "T", closing_date := 5, posted_by_id := 1,
    status := TStatus.open_ }

/-- A pending bid of company 2 on `lateTender`. -/
def lateBid : Bid := { id := 2, tender_id := 1, company_id := 2, amount := 100 }

/-- A database holding an open tender past its closing date with one
pending bid. -/
def lateDB : DB := { tenders := [lateTender], bids := [lateBid] }

/-- An operation sequence that never awards, yet drives two bids of
tender 10 to status `accepted` through the bid-status-update endpoint:
create, publish, open, two submissions, two status updates by the
owner. -/
def cexOps : List Op :=
  [Op.opCreateTender 10 "Road works" 1000 exOwner,
   Op.opChangeStatus 10 TStatus.published none exOwner 1,
   Op.opChangeStatus 10 TStatus.open_ none exOwner 2,
   Op.opSubmitBid 10 exBidder 100 "d1.pdf" 21 5,
   Op.opSubmitBid 10 exBidder2 150 "d2.pdf" 22 6,
   Op.opUpdateBidStatus 21 "accepted" exOwner,
   Op.opUpdateBidStatus 22 "accepted" exOwner]

/-- C2. `validate_transition` accepts exactly the pairs of the transition
table (with a truthy reason whenever the target is `cancelled`) together
with the identity pairs; every pair outside the table that is not an
identity is rejected with the allowed set of the current status listed in
the message. -/
theorem validate_transition_matches_table (f t : TStatus) (r : Option String) :
    ((validate_transition f t r).1 = true ↔
      (f = t ∨ (can_transition f t = true ∧
        (t = TStatus.cancelled → r ≠ none ∧ r ≠ some "")))) ∧
    (can_transition f t = false → f ≠ t →
      validate_transition f t r = (false, cannotTransitionMsg f t)) := by
  have htruthy : reasonTruthy r = true ↔ r ≠ none ∧ r ≠ some "" := by
    cases r with
    | none => simp [reasonTruthy]
    | some s => simp [reasonTruthy]
  constructor
  · unfold validate_transition
    split_ifs with h1 h2 h3
    · simp [h1]
    · simp only [h1, false_or]
      constructor
      · intro h; cases h
      · rintro ⟨hc, -⟩
        rw [h2] at hc; cases hc
    · obtain ⟨h3a, h3b⟩ := h3
      simp only [h1, false_or]
      constructor
      · intro h; cases h
      · rintro ⟨-, himp⟩
        have := (htruthy.mpr (himp h3a))
        rw [h3b] at this; cases this
    · simp only [h1, false_or, true_iff]
      refine ⟨by revert h2; cases can_transition f t <;> simp, ?_⟩
      intro ht
      rcases Decidable.em (reasonTruthy r = true) with hr | hr
      · exact htruthy.mp hr
      · exact absurd ⟨ht, by revert hr; cases reasonTruthy r <;> simp⟩ h3
  · intro h2 h1
    unfold validate_transition
    rw [if_neg h1, if_pos h2]
    rfl

/-- C7. Requesting a transition to `cancelled` with a missing or empty
reason is rejected from every source status except `cancelled` itself,
where it is accepted as a same-state no-op. -/
theorem cancel_requires_reason (s : TStatus) (r : Option String)
    (h : r = none ∨ r = some "") :
    (validate_transition s TStatus.cancelled r).1 = true ↔ s = TStatus.cancelled := by
  rcases h with h | h <;> subst h <;> revert s <;> decide

/-- Witness for `cancel_requires_reason` at `s = draft`, `r = none`. -/
theorem cancel_requires_reason_witness :
    (validate_transition TStatus.draft TStatus.cancelled none).1 = true ↔
      TStatus.draft = TStatus.cancelled :=
  cancel_requires_reason TStatus.draft none (Or.inl rfl)

theorem bidResolution_rejectOther (tid wid : Nat) (b : Bid)
    (h : ¬(b.id = wid ∧ b.tender_id = tid)) :
    bidResolution tid wid b (rejectOther wid tid b) := by
  by_cases ht : b.tender_id = tid
  · have hid : b.id ≠ wid := fun hb => h ⟨hb, ht⟩
    by_cases hs : b.status = "withdrawn"
    · have hb' : rejectOther wid tid b = b := by
        simp [rejectOther, hs]
      refine ⟨fun hc => absurd ht hc, fun _ hc => absurd hc hid,
        fun _ _ hc => absurd hs hc, fun _ _ _ => hb'⟩
    · have hb' : rejectOther wid tid b = { b with status := "rejected" } := by
        simp [rejectOther, ht, hid, hs]
      refine ⟨fun hc => absurd ht hc, fun _ hc => absurd hc hid,
        fun _ _ _ => hb', fun _ _ hc => absurd hc hs⟩
  · have hb' : rejectOther wid tid b = b := by
      simp [rejectOther, ht]
    refine ⟨fun _ => hb', fun hc => absurd hc ht,
      fun hc => absurd hc ht, fun hc => absurd hc ht⟩

theorem bidResolution_winner (tid wid : Nat) (b : Bid)
    (hbw : b.id = wid) (hbt : b.tender_id = tid) :
    bidResolution tid wid b (rejectOther wid tid { b with status := "accepted" }) := by
  have hb' : rejectOther wid tid { b with status := "accepted" } =
      { b with status := "accepted" } := by
    simp [rejectOther, hbw]
  refine ⟨fun hc => absurd hbt hc, fun _ _ => hb',
    fun _ hc _ => absurd hbw hc, fun _ hc _ => absurd hbw hc⟩

theorem acceptedOf_rejectOther_false (tid wid : Nat) (b : Bid)
    (h : ¬(b.id = wid ∧ b.tender_id = tid)) :
    acceptedOf tid (rejectOther wid tid b) = false := by
  by_cases ht : b.tender_id = tid
  · have hid : b.id ≠ wid := fun hb => h ⟨hb, ht⟩
    by_cases hs : b.status = "withdrawn"
    · simp [rejectOther, acceptedOf, hs]
    · simp [rejectOther, acceptedOf, ht, hid, hs]
  · simp [rejectOther, acceptedOf, ht]

theorem resolve_award_spec (bids : List Bid) (wid tid : Nat)
    (hn : (bids.map Bid.id).Nodup) (w : Bid)
    (hw : bids.find? (fun b => b.id == wid && b.tender_id == tid) = some w) :
    List.Forall₂ (bidResolution tid wid) bids (resolve_award bids wid tid) ∧
    (resolve_award bids wid tid).countP (acceptedOf tid) = 1 := by
  induction bids with
  | nil => simp at hw
  | cons b rest ih =>
    rw [List.map_cons, List.nodup_cons] at hn
    obtain ⟨hbid, hnrest⟩ := hn
    by_cases hp : (b.id == wid && b.tender_id == tid) = true
    · obtain ⟨hbw, hbt⟩ : b.id = wid ∧ b.tender_id = tid := by
        simpa using hp
      have hres : resolve_award (b :: rest) wid tid =
          rejectOther wid tid { b with status := "accepted" } ::
            rest.map (rejectOther wid tid) := by
        simp [resolve_award, setWinnerAccepted, updateFirst, hp, rejectOthers]
      have hrest : ∀ a ∈ rest, a.id ≠ wid := by
        intro a ha haw
        exact hbid (hbw ▸ haw ▸ List.mem_map_of_mem Bid.id ha)
      constructor
      · rw [hres]
        exact List.Forall₂.cons (bidResolution_winner tid wid b hbw hbt)
          ((List.forall₂_map_right_iff.trans List.forall₂_same).mpr
            (fun a ha => bidResolution_rejectOther tid wid a
              (fun hc => hrest a ha hc.1)))
      · rw [hres]
        have hhead : acceptedOf tid (rejectOther wid tid
            { b with status := "accepted" }) = true := by
          simp [rejectOther, acceptedOf, hbw, hbt]
        rw [List.countP_cons_of_pos _ _ hhead]
        have hzero : (rest.map (rejectOther wid tid)).countP (acceptedOf tid) = 0 := by
          rw [List.countP_eq_zero]
          intro x hx
          obtain ⟨a, ha, rfl⟩ := List.mem_map.mp hx
          simp [acceptedOf_rejectOther_false tid wid a
            (fun hc => hrest a ha hc.1)]
        rw [hzero]
    · have hw' : rest.find? (fun b => b.id == wid && b.tender_id == tid) = some w := by
        rwa [List.find?_cons_of_neg _ (by simpa using hp)] at hw
      have hres : resolve_award (b :: rest) wid tid =
          rejectOther wid tid b :: resolve_award rest wid tid := by
        simp [resolve_award, setWinnerAccepted, updateFirst, hp, rejectOthers]
      have hnp : ¬(b.id = wid ∧ b.tender_id = tid) := by
        intro hc
        exact hp (by simp [hc.1, hc.2])
      obtain ⟨ihF, ihC⟩ := ih hnrest hw'
      constructor
      · rw [hres]
        exact List.Forall₂.cons (bidResolution_rejectOther tid wid b hnp) ihF
      · rw [hres, List.countP_cons_of_neg, ihC]
        simp [acceptedOf_rejectOther_false tid wid b hnp]

/-- C1. After a successful award of bid `wid` on tender `tid`, with the
database's bid ids unique: the winner is accepted, every other bid of
the tender that was not withdrawn is rejected, every previously
withdrawn bid and every bid of another tender is unchanged, and exactly
one bid of the tender holds status `accepted`. -/
theorem award_resolves_bids (db : DB) (tid wid : Nat) (j : String) (u : User)
    (now : Nat) (db' : DB)
    (hn : (db.bids.map Bid.id).Nodup)
    (h : award_tender db tid wid j u now = Except.ok db') :
    List.Forall₂ (bidResolution tid wid) db.bids db'.bids ∧
    db'.bids.countP (acceptedOf tid) = 1 := by
  unfold award_tender at h
  cases hft : db.findTender tid with
  | none => rw [hft] at h; cases h
  | some tender =>
    rw [hft] at h
    dsimp only at h
    by_cases h1 : can_award_tender u tender.posted_by_id = false
    · rw [if_pos h1] at h; cases h
    · rw [if_neg h1] at h
      by_cases h2 : can_award tender.status = false
      · rw [if_pos h2] at h; cases h
      · rw [if_neg h2] at h
        by_cases h3 : tender.status = TStatus.awarded
        · rw [if_pos h3] at h; cases h
        · rw [if_neg h3] at h
          cases hfb : db.bids.find? (fun b => b.id == wid && b.tender_id == tid) with
          | none => rw [hfb] at h; cases h
          | some bid =>
            rw [hfb] at h
            dsimp only at h
            by_cases h4 : (bid.status == "withdrawn") = true
            · rw [if_pos h4] at h; cases h
            · rw [if_neg h4] at h
              cases h
              exact resolve_award_spec db.bids wid tid hn bid hfb

/-- Witness for `award_resolves_bids` on a concrete database: tender 1 in
evaluation with bids 11 (pending), 12 (pending), 13 (withdrawn); bid 11
is awarded. -/
theorem award_resolves_bids_witness :
    List.Forall₂ (bidResolution 1 11) exDB.bids exAwardedDB.bids ∧
    exAwardedDB.bids.countP (acceptedOf 1) = 1 :=
  award_resolves_bids exDB 1 11 "good value" exOwner 60 exAwardedDB
    (by decide) (by rfl)

/-- C3 counterexample. Starting from the empty database, a sequence of
exposed operations containing no award — create, publish, open, two bid
submissions, then two calls to the bid-status-update endpoint by the
tender's owner — reaches a state in which two bids of tender 10 hold
status `accepted`. This refutes both parts of the claim: the
at-most-one-accepted invariant fails at a reachable state, and an
operation other than award sets a bid's status to `accepted`. -/
theorem accepted_not_exclusive_cex :
    (applyOps emptyDB cexOps).bids.countP (acceptedOf 10) = 2 ∧
    cexOps.all (fun op => !op.isAward) = true := by
  constructor
  · rfl
  · rfl

/-- C3 amended. The bid-status-update endpoint sets a bid's status to
`accepted` whenever the bid exists and the actor's company owns the
tender — with no uniqueness check against other accepted bids and no
involvement of the award operation. -/
theorem update_bid_status_sets_accepted (db : DB) (bid_id : Nat) (u : User)
    (bid : Bid) (tender : Tender)
    (hfb : db.findBid bid_id = some bid)
    (hft : db.findTender bid.tender_id = some tender)
    (hauth : u.company_id = some tender.posted_by_id) :
    update_bid_status db bid_id "accepted" u =
      Except.ok { db with
        bids := updateFirst (fun b => b.id == bid_id)
          (fun b => { b with status := "accepted" }) db.bids } := by
  unfold update_bid_status
  rw [hfb]
  dsimp only
  rw [hft]
  dsimp only
  rw [if_neg (by simp [hauth]), if_neg (by simp)]

/-- Witness for `update_bid_status_sets_accepted`: the owner of tender 1
sets bid 12 to `accepted` directly. -/
theorem update_bid_status_sets_accepted_witness :
    update_bid_status exDB 12 "accepted" exOwner =
      Except.ok { exDB with
        bids := updateFirst (fun b => b.id == 12)
          (fun b => { b with status := "accepted" }) exDB.bids } :=
  update_bid_status_sets_accepted exDB 12 exOwner exBid2 exTender
    (by rfl) (by rfl) (by rfl)

/-- C4. For an authorized actor, awarding a tender whose status is not
`evaluation` fails with the invalid-state error, and running the request
through the operation layer leaves the database — in particular every
bid — unchanged. -/
theorem award_requires_evaluation (db : DB) (tid wid : Nat) (j : String)
    (u : User) (now : Nat) (tender : Tender)
    (hft : db.findTender tid = some tender)
    (hauth : can_award_tender u tender.posted_by_id = true)
    (hst : tender.status ≠ TStatus.evaluation) :
    award_tender db tid wid j u now = Except.error AwardErr.invalidState ∧
    applyOp db (Op.opAwardTender tid wid j u now) = db := by
  have herr : award_tender db tid wid j u now = Except.error AwardErr.invalidState := by
    unfold award_tender
    rw [hft]
    dsimp only
    rw [if_neg (by simp [hauth]), if_pos (by simp [can_award, hst])]
  exact ⟨herr, by simp [applyOp, herr]⟩

/-- Witness for `award_requires_evaluation`: tender 1 of `lateDB` is in
`open` status, so awarding bid 2 fails and the database is unchanged. -/
theorem award_requires_evaluation_witness :
    award_tender lateDB 1 2 "why" exOwner 10 = Except.error AwardErr.invalidState ∧
    applyOp lateDB (Op.opAwardTender 1 2 "why" exOwner 10) = lateDB :=
  award_requires_evaluation lateDB 1 2 "why" exOwner 10 lateTender
    (by rfl) (by rfl) (by decide)

/-- C5 counterexample. Tender 1 of `lateDB` is `open` with closing date 5;
at instant 10 (past the deadline) submitting a bid fails with the
invalid-state error, yet withdrawing the pending bid 2 succeeds — so the
withdrawal window is not the submission window: withdrawal skips the
deadline check. -/
theorem withdraw_window_differs_cex :
    submit_bid lateDB 1 exBidder 100 "d.pdf" 9 10 = Except.error BidErr.invalidState ∧
    withdraw_bid lateDB 2 exBidder "changed mind" 10 =
      Except.ok { lateDB with
        bids := [{ lateBid with status := "withdrawn",
                                withdrawn_at := some 10,
                                withdrawal_reason := some "changed mind" }] } := by
  constructor
  · rfl
  · rfl

/-- C5 amended. For the bid's owner, on a non-withdrawn bid, withdrawal
fails with the invalid-state error exactly when the owning tender's
status is not `open`; the closing deadline is never consulted, so the
result is the same at any current time `now`. -/
theorem withdraw_requires_open_only (db : DB) (bid_id : Nat) (u : User)
    (reason : String) (now : Nat) (bid : Bid) (tender : Tender)
    (hfb : db.findBid bid_id = some bid)
    (hown : u.company_id = some bid.company_id)
    (hnw : bid.status ≠ "withdrawn")
    (hft : db.findTender bid.tender_id = some tender) :
    (tender.status = TStatus.open_ →
      withdraw_bid db bid_id u reason now =
        Except.ok { db with
          bids := updateFirst (fun b => b.id == bid_id)
            (fun b => { b with status := "withdrawn", withdrawn_at := some now,
                               withdrawal_reason := some reason }) db.bids }) ∧
    (tender.status ≠ TStatus.open_ →
      withdraw_bid db bid_id u reason now = Except.error BidErr.invalidState) := by
  have hstep : withdraw_bid db bid_id u reason now =
      (if can_receive_bids tender.status = false then Except.error BidErr.invalidState
       else Except.ok { db with
         bids := updateFirst (fun b => b.id == bid_id)
           (fun b => { b with status := "withdrawn", withdrawn_at := some now,
                              withdrawal_reason := some reason }) db.bids }) := by
    unfold withdraw_bid
    rw [hfb]
    dsimp only
    rw [if_neg (by simp [hown]), if_neg (by simp [hnw])]
    rw [hft]
  constructor
  · intro hopen
    rw [hstep, if_neg (by simp [can_receive_bids, hopen])]
  · intro hclosed
    rw [hstep, if_pos (by simp [can_receive_bids, hclosed])]

/-- Witness for `withdraw_requires_open_only` on `lateDB` at instant 10,
past the closing date but with the tender still `open`. -/
theorem withdraw_requires_open_only_witness :
    (lateTender.status = TStatus.open_ →
      withdraw_bid lateDB 2 exBidder "late exit" 10 =
        Except.ok { lateDB with
          bids := updateFirst (fun b => b.id == 2)
            (fun b => { b with status := "withdrawn", withdrawn_at := some 10,
                               withdrawal_reason := some "late exit" }) lateDB.bids }) ∧
    (lateTender.status ≠ TStatus.open_ →
      withdraw_bid lateDB 2 exBidder "late exit" 10 = Except.error BidErr.invalidState) :=
  withdraw_requires_open_only lateDB 2 exBidder "late exit" 10 lateBid lateTender
    (by rfl) (by rfl) (by decide) (by rfl)

/-- C6 counterexample. Awarding tender 1 with a blank justification
succeeds: no `EmptyJustification` (or any other) failure occurs, and the
empty string is stored as the award justification. -/
theorem blank_justification_accepted_cex :
    award_tender exDB 1 11 "" exOwner 60 =
      Except.ok { tenders := [{ exTender with status := TStatus.awarded,
                                              winning_bid_id := some 11,
                                              awarded_at := some 60,
                                              award_justification := some "" }],
                  bids := [{ exBid1 with status := "accepted" },
                           { exBid2 with status := "rejected" },
                           exBid3] } := by
  rfl

/-- C6 amended. The justification field of an award request is required
to be present but may be blank: under the award preconditions (authorized
actor, tender in evaluation, existing non-withdrawn bid), awarding with
the empty string succeeds and stores `""` as the justification. -/
theorem award_accepts_blank_justification (db : DB) (tid wid : Nat)
    (u : User) (now : Nat) (tender : Tender) (bid : Bid)
    (hft : db.findTender tid = some tender)
    (hauth : can_award_tender u tender.posted_by_id = true)
    (hst : tender.status = TStatus.evaluation)
    (hfb : db.bids.find? (fun b => b.id == wid && b.tender_id == tid) = some bid)
    (hnw : bid.status ≠ "withdrawn") :
    award_tender db tid wid "" u now =
      Except.ok { db with
        tenders := updateFirst (fun t => t.id == tid)
          (fun t => { t with status := TStatus.awarded,
                             winning_bid_id := some wid,
                             awarded_at := some now,
                             award_justification := some "" }) db.tenders,
        bids := resolve_award db.bids wid tid } := by
  unfold award_tender
  rw [hft]
  dsimp only
  rw [if_neg (by simp [hauth]), if_neg (by simp [can_award, hst]),
    if_neg (by simp [hst])]
  rw [hfb]
  dsimp only
  rw [if_neg (by simp [hnw])]

/-- Witness for `award_accepts_blank_justification` on `exDB`. -/
theorem award_accepts_blank_justification_witness :
    award_tender exDB 1 11 "" exOwner 60 =
      Except.ok { exDB with
        tenders := updateFirst (fun t => t.id == 1)
          (fun t => { t with status := TStatus.awarded,
                             winning_bid_id := some 11,
                             awarded_at := some 60,
                             award_justification := some "" }) exDB.tenders,
        bids := resolve_award exDB.bids 11 1 } :=
  award_accepts_blank_justification exDB 1 11 exOwner 60 exTender exBid1
    (by rfl) (by rfl) (by rfl) (by rfl) (by decide)

/-- C8. Revising a non-withdrawn bid of an `open` tender before the
closing deadline, as the bid's owner, succeeds and produces: the
original row marked `superseded`, and a new row with status `pending`,
revision number one more than the original's, parent reference the
original's id, and the original's document path carried forward unless a
new document is supplied. -/
theorem revise_bid_spec (db : DB) (bid_id : Nat) (u : User) (amount : Int)
    (newDoc : Option String) (newId : Nat) (now : Nat)
    (original_bid : Bid) (tender : Tender)
    (hfb : db.findBid bid_id = some original_bid)
    (hown : u.company_id = some original_bid.company_id)
    (hnw : original_bid.status ≠ "withdrawn")
    (hft : db.findTender original_bid.tender_id = some tender)
    (hopen : tender.status = TStatus.open_)
    (hdl : now < tender.closing_date) :
    revise_bid db bid_id u amount newDoc newId now =
      Except.ok { db with
        bids := updateFirst (fun b => b.id == bid_id)
            (fun b => { b with status := "superseded" }) db.bids ++
          [{ id := newId,
             tender_id := original_bid.tender_id,
             company_id := original_bid.company_id,
             amount := amount,
             document_path := (match newDoc with
               | some d => some d
               | none => original_bid.document_path),
             status := "pending",
             revision_number := original_bid.revision_number + 1,
             parent_bid_id := some bid_id }] } := by
  unfold revise_bid
  rw [hfb]
  dsimp only
  rw [if_neg (by simp [hown]), if_neg (by simp [hnw])]
  rw [hft]
  dsimp only
  rw [if_neg (by simp [can_receive_bids, hopen]),
    if_neg (by simpa using Nat.not_le.mpr hdl)]

/-- Witness for `revise_bid_spec`: bid 2 of the open tender 1 is revised
at instant 3 (before the closing date 5) with no new document. -/
theorem revise_bid_spec_witness :
    revise_bid lateDB 2 exBidder 120 none 33 3 =
      Except.ok { lateDB with
        bids := updateFirst (fun b => b.id == 2)
            (fun b => { b with status := "superseded" }) lateDB.bids ++
          [{ id := 33,
             tender_id := lateBid.tender_id,
             company_id := lateBid.company_id,
             amount := 120,
             document_path := (match (none : Option String) with
               | some d => some d
               | none => lateBid.document_path),
             status := "pending",
             revision_number := lateBid.revision_number + 1,
             parent_bid_id := some 2 }] } :=
  revise_bid_spec lateDB 2 exBidder 120 none 33 3 lateBid lateTender
    (by rfl) (by rfl) (by decide) (by rfl) (by rfl) (by decide)

theorem sorted_keyLT_of_nodup (l : List (String × String))
    (hs : l.Sorted keyLE) (hn : (l.map Prod.fst).Nodup) :
    l.Sorted keyLT := by
  have hne : l.Pairwise (fun a b : String × String => a.1 ≠ b.1) :=
    List.pairwise_map.mp hn
  exact (hs.and hne).imp (fun h => lt_of_le_of_ne h.1 h.2)

theorem dumps_sort_keys_perm (l₁ l₂ : List (String × String))
    (hp : l₁.Perm l₂) (hn : (l₁.map Prod.fst).Nodup) :
    dumps_sort_keys l₁ = dumps_sort_keys l₂ := by
  unfold dumps_sort_keys
  congr 1
  have hp₁ := List.perm_insertionSort keyLE l₁
  have hp₂ := List.perm_insertionSort keyLE l₂
  have hperm : (List.insertionSort keyLE l₁).Perm (List.insertionSort keyLE l₂) :=
    (hp₁.trans hp).trans hp₂.symm
  have hn₁ : ((List.insertionSort keyLE l₁).map Prod.fst).Nodup :=
    ((hp₁.map Prod.fst).nodup_iff).mpr hn
  have hn₂ : ((List.insertionSort keyLE l₂).map Prod.fst).Nodup :=
    ((hperm.map Prod.fst).nodup_iff).mp hn₁
  exact List.eq_of_perm_of_sorted hperm
    (sorted_keyLT_of_nodup _ (List.sorted_insertionSort keyLE l₁) hn₁)
    (sorted_keyLT_of_nodup _ (List.sorted_insertionSort keyLE l₂) hn₂)

/-- C9. The content hash computed by the ledger-commit path is a
deterministic function of the award facts: for any insertion order of
the `award_data` payload (any permutation of its seven entries), the
sorted-key serialization — and hence the digest computed over it — is
identical. Two runs over the same facts therefore produce the same
content hash. -/
theorem award_hash_deterministic (digest : String → String)
    (tid title wid wcid amt at_ pb : String)
    (l : List (String × String))
    (hp : l.Perm (award_data tid title wid wcid amt at_ pb)) :
    record_award_hash digest l =
      record_award_hash digest (award_data tid title wid wcid amt at_ pb) := by
  unfold record_award_hash
  congr 1
  refine dumps_sort_keys_perm l _ hp ?_
  have hkeys : (award_data tid title wid wcid amt at_ pb).map Prod.fst =
      ["tender_id", "tender_title", "winning_bid_id", "winning_company_id",
       "award_amount", "awarded_at", "posted_by"] := rfl
  have : ((award_data tid title wid wcid amt at_ pb).map Prod.fst).Nodup := by
    rw [hkeys]; decide
  exact ((hp.map Prod.fst).nodup_iff).mpr this

/-- Witness for `award_hash_deterministic`: the reversed payload hashes
identically to the payload in insertion order, for concrete facts. -/
theorem award_hash_deterministic_witness :
    record_award_hash (fun s => s)
        ((award_data "1" "Road works" "11" "2" "100.00"
          "2024-05-01T00:00:00" "1").reverse) =
      record_award_hash (fun s => s)
        (award_data "1" "Road works" "11" "2" "100.00"
          "2024-05-01T00:00:00" "1") :=
  award_hash_deterministic (fun s => s) "1" "Road works" "11" "2" "100.00"
    "2024-05-01T00:00:00" "1" _ (List.reverse_perm _)

/-- C10. If the ledger submission raises an error, the worker's session
is rolled back: `process_award` leaves the database exactly as it was —
in particular the tender's content-hash and commit-reference fields and
the winning bid's status are unmodified. The database is mutated only on
a successful ledger submission. -/
theorem process_award_error_rollback (db : DB) (tid wid : Nat) (e : String) :
    process_award db tid wid (Except.error e) = db := by
  unfold process_award
  cases db.findTender tid <;> cases db.findBid wid <;> rfl

end TenderBridge
